import Mathlib

/-!
Shallow embedding of `ec2grep` (`src/ec2grep/__init__.py`), a CLI that
matches EC2 instances by a substring query, prompts for a selection, and
dispatches `ssh`/`scp` or lists the matches.  The network call
(`boto3 describe_instances`) is replaced by its result: every function that
queries the API takes the per-attribute responses as an explicit argument
(one entry per attribute filter, each a list of reservations, each a list
of instances).  Standard input is an explicit list of lines; `die` is
modelled by `Except.error`, mapped to an (stderr, exit-code) pair by
`runExit`.
-/

namespace Ec2grep

/-- Lexicographic order on character lists by code point, the ordering
Python uses to compare `str` values (`sorted(..., key=name)` compares the
derived names this way).  Defined directly so that it kernel-reduces. -/
def charsLe : List Char → List Char → Bool
  | [], _ => true
  | _ :: _, [] => false
  | a :: as, b :: bs => if a < b then true else if b < a then false else charsLe as bs

/-- `a <= b` on strings, as Python compares them (by code points). -/
def strLe (a b : String) : Bool := charsLe a.data b.data

/-- An EC2 instance as returned by `describe_instances`: the dict keys the
program reads.  `none` models an absent dict key (`'PublicIpAddress' in i`
is `Option.isSome`). -/
structure Instance where
  instanceId : String := ""
  tags : List (String × String) := []
  publicIpAddress : Option String := none
  privateIpAddress : Option String := none
deriving DecidableEq, Repr, Inhabited

/-- `name = lambda i: {tag['Key']: tag['Value'] for tag in i.get('Tags', [])}.get('Name', '')`.
The dict comprehension keeps the last binding of a duplicate key, hence the
`reverse` before the first-match `lookup`. -/
def name (i : Instance) : String := ((i.tags.reverse).lookup "Name").getD ""

/-- `private_ip = lambda i: i.get('PrivateIpAddress', None)`. -/
def private_ip (i : Instance) : Option String := i.privateIpAddress

/-- `public_ip = lambda i: i.get('PublicIpAddress', None)`. -/
def public_ip (i : Instance) : Option String := i.publicIpAddress

/-- Python `str(v)` of a value that is either a string or `None`, as
performed by `str.format` when a formatter value is substituted. -/
def pyStr (v : Option String) : String := v.getD "None"

/-- `extended_public = lambda i: '... ({})'.format(name(i), public_ip(i))`. -/
def extended_public (i : Instance) : String :=
  name i ++ " (" ++ pyStr (public_ip i) ++ ")"

/-- `extended_private = lambda i: '... ({})'.format(name(i), private_ip(i))`. -/
def extended_private (i : Instance) : String :=
  name i ++ " (" ++ pyStr (private_ip i) ++ ")"

/-- `extended = lambda i: '... (public: ..., private: ...)'.format(...)`. -/
def extended (i : Instance) : String :=
  name i ++ " (public: " ++ pyStr (public_ip i) ++ ", private: " ++ pyStr (private_ip i) ++ ")"

/-- The formatter registry.  Values are the raw Python values of the
lambdas: `name` and the `extended*` formatters produce strings, the two IP
formatters produce `str`-or-`None`. -/
def formatters : List (String × (Instance → Option String)) :=
  [("extended", fun i => some (extended i)),
   ("extended_public", fun i => some (extended_public i)),
   ("extended_private", fun i => some (extended_private i)),
   ("public_ip", public_ip),
   ("private_ip", private_ip),
   ("name", fun i => some (name i))]

/-- The filter `'PublicIpAddress' in i or 'PrivateIpAddress' in i` applied
to the chained instances in `match_instances`. -/
def hasAddress (i : Instance) : Bool :=
  i.publicIpAddress.isSome || i.privateIpAddress.isSome

/-- `_get_instances`: flattens the reservations of one response into the
list of their instances (`itertools.chain.from_iterable`). -/
def _get_instances (reservations : List (List Instance)) : List Instance :=
  reservations.flatten

/-- The comparison `sorted(..., key=name)` sorts by. -/
def nameLe (a b : Instance) : Prop := strLe (name a) (name b) = true

instance : DecidableRel nameLe := fun a b => by unfold nameLe; infer_instance

/-- `match_instances(region_name, query)` with the network replaced by its
result: one response per attribute filter.  Chains the per-attribute
instance lists, keeps instances having at least one address key, and
returns them sorted by derived name (`sorted` is a stable sort, modelled by
insertion sort, which is stable). -/
def match_instances (responses : List (List (List Instance))) : List Instance :=
  let instance_lists := responses.map _get_instances
  let chained := instance_lists.flatten.filter hasAddress
  List.insertionSort nameLe chained

/-- Python truthiness of a `click` option value: `None` and `''` are
falsy, any other string is truthy. -/
def truthy : Option String → Bool
  | none => false
  | some s => !(s == "")

/-- `validate_identity_parameters(user, key, ssh_config)`; `die` is
modelled as `Except.error`. -/
def validate_identity_parameters (user key ssh_config : Option String) : Except String Unit :=
  if !truthy key && !truthy ssh_config then
    Except.error "Must supply either SSH key or SSH config file"
  else if truthy ssh_config && (truthy user || truthy key) then
    Except.error "The ssh-config option is mutually exclusive with the user and key options"
  else
    Except.ok ()

/-- The characters Python's `str.strip()` removes (ASCII whitespace). -/
def py_isspace (c : Char) : Bool :=
  c = ' ' || c = '\t' || c = '\n' || c = '\r' || c = '\x0b' || c = '\x0c'

/-- Python `str.strip()` on a character list. -/
def pyStrip (cs : List Char) : List Char :=
  ((cs.dropWhile py_isspace).reverse.dropWhile py_isspace).reverse

/-- Digit tail of a Python decimal int literal: digits with single
underscores allowed between digits. -/
def pyDigitsAux : List Char → Nat → Option Nat
  | [], acc => some acc
  | '_' :: c :: rest, acc =>
    if c.isDigit then pyDigitsAux rest (acc * 10 + (c.toNat - 48)) else none
  | ['_'], _ => none
  | c :: rest, acc =>
    if c.isDigit then pyDigitsAux rest (acc * 10 + (c.toNat - 48)) else none

/-- Nonempty digit sequence starting a Python decimal int literal. -/
def pyDigitsStart : List Char → Option Nat
  | [] => none
  | c :: rest => if c.isDigit then pyDigitsAux rest (c.toNat - 48) else none

/-- Python `int(s)` on a decimal string: strips whitespace, then an
optional sign followed by digits (with single underscores between digits);
anything else raises `ValueError`, modelled as `none`. -/
def pyInt (s : String) : Option Int :=
  match pyStrip s.data with
  | '+' :: rest => (pyDigitsStart rest).map (fun n => (n : Int))
  | '-' :: rest => (pyDigitsStart rest).map (fun n => -(n : Int))
  | cs => (pyDigitsStart cs).map (fun n => (n : Int))

/-- Python `str.split(',')`: splits at every comma, keeping empty pieces
(`''.split(',') == ['']`). -/
def split_commas : List Char → List (List Char)
  | [] => [[]]
  | ',' :: rest => [] :: split_commas rest
  | c :: rest =>
    match split_commas rest with
    | [] => [[c]]
    | g :: gs => (c :: g) :: gs

/-- One iteration of the `read_numbers` loop body on one input line:
`[int(c.strip()) for c in choices.split(',')]` followed by the two range
checks; any `ValueError` (parse failure or failed check) yields `none`. -/
def acceptLine (min_value max_value : Int) (line : String) : Option (List Int) :=
  match (split_commas line.data).mapM (fun c => pyInt (String.mk c)) with
  | none => none
  | some choices =>
    if !(choices.all fun c => decide (min_value ≤ c) && decide (c ≤ max_value)) then none
    else if choices.length != 1 && choices.contains 0 then none
    else some choices

/-- `read_numbers(min_value, max_value)` reading from an explicit list of
stdin lines: loops, echoing the error and re-prompting on every rejected
line, until a line is accepted; `none` models end of input (`EOFError`). -/
def read_numbers (min_value max_value : Int) : List String → Option (List Int)
  | [] => none
  | line :: rest =>
    match acceptLine min_value max_value line with
    | some choices => some choices
    | none => read_numbers min_value max_value rest

/-- The menu `get_hosts_choice` echoes when there is more than one match:
`[0] All`, one `[i] rendered` line per match, then the selection prompt. -/
def menuOf (fmt_match : Instance → String) (matched : List Instance) : List String :=
  "[0] All" ::
    (matched.enum.map (fun p => "[" ++ toString (p.1 + 1) ++ "] " ++ fmt_match p.2) ++
      ["select servers [0-" ++ toString matched.length ++ "] (comma separated) "])

/-- `get_hosts_choice(ctx, fmt_match, query)` with the matcher result
passed in as `matched` and stdin as `input`.  Returns the echoed menu lines
and the chosen instances, or the `die`/`EOFError` message. -/
def get_hosts_choice (fmt_match : Instance → String) (matched : List Instance)
    (input : List String) : Except String (List String × List Instance) :=
  if matched.length = 0 then Except.error "No matches found"
  else if matched.length > 1 then
    match read_numbers 0 (matched.length : Int) input with
    | none => Except.error "EOFError"
    | some indices =>
      if indices.length == 1 && indices.getD 0 1 == 0 then
        Except.ok (menuOf fmt_match matched, matched)
      else
        Except.ok (menuOf fmt_match matched,
          indices.map (fun index => matched.getD (index - 1).toNat default))
  else Except.ok ([], [matched.getD 0 default])

/-- Maps a command result to the observable (stderr message, exit code):
`die` prints its message to stderr and exits 1; success exits 0. -/
def runExit {α : Type} : Except String α → String × Nat
  | Except.error e => (e, 1)
  | Except.ok _ => ("", 0)

/-- The `op` closure of the `ssh` command: the argument vector built for
one resolved host address. -/
def ssh_build_command (user key ssh_config : Option String) (ssh_args : List String)
    (host : String) : List String :=
  let command := ["ssh", "-oStrictHostKeyChecking=no"]
  let command := command ++ (if truthy key then ["-i", key.getD ""] else ["-F", ssh_config.getD ""])
  let command := if truthy user then command ++ ["-l", user.getD ""] else command
  command ++ [host] ++ ssh_args

/-- The `ssh`/`scp` command pipeline up to host selection: validates the
identity flags first, and only then consults the inventory responses
(`run_op_for_hosts` → `get_hosts_choice` → `match_instances`). -/
def ssh_cmd (user key ssh_config : Option String) (fmt_match : Instance → String)
    (responses : List (List (List Instance))) (input : List String) :
    Except String (List String × List Instance) :=
  match validate_identity_parameters user key ssh_config with
  | Except.error e => Except.error e
  | Except.ok _ => get_hosts_choice fmt_match (match_instances responses) input

/-- Substitution of the single-placeholder template the `ls` command
builds for a registry key (`formatter.join('\x7b\x7d')` produces the
template `\x7b`key`\x7d`, and `str.format` then substitutes `str` of the
registry value).  An unknown key raises `KeyError`, modelled as `none`. -/
def format_by_key (fmtKey : String) (m : Instance) : Option String :=
  (formatters.lookup fmtKey).map (fun f => pyStr (f m))

/-- The `ls` command (non-`--custom-format` path) on the mocked responses:
matched, dies on an empty result, renders every match with the chosen
registry formatter and joins with the delimiter. -/
def ls_cmd (delim fmtKey : String) (responses : List (List (List Instance))) :
    Except String String :=
  let matched := match_instances responses
  if matched.length = 0 then Except.error "No matches found"
  else
    match matched.mapM (format_by_key fmtKey) with
    | none => Except.error "KeyError"
    | some rendered => Except.ok (String.intercalate delim rendered)

/-- `host.replace('.', '-')`. -/
def dashify (host : String) : String :=
  String.mk (host.data.map (fun c => if c = '.' then '-' else c))

/-- `os.path.join(a, b)` for POSIX paths. -/
def path_join (a b : String) : String :=
  if b.data.headD ' ' = '/' then b
  else if a = "" then b
  else if a.data.getLast? = some '/' then a ++ b
  else a ++ "/" ++ b

/-- `format_scp_remote_host_path(user, host, path)`. -/
def format_scp_remote_host_path (user : Option String) (host path : String) : String :=
  if truthy user then user.getD "" ++ "@" ++ host ++ ":" ++ path
  else host ++ ":" ++ path

/-- The first three lines of the `scp` command's `op` closure: the common
command head shared by every branch. -/
def scp_base (key ssh_config : Option String) (scp_args : List String) : List String :=
  let command := ["scp", "-oStrictHostKeyChecking=no"]
  let command := command ++ (if truthy key then ["-i", key.getD ""] else ["-F", ssh_config.getD ""])
  command ++ scp_args

/-- Result of one call of the `scp` command's `op` closure: the
directories it creates via `os.mkdir` and the argument vector it returns. -/
structure ScpStep where
  mkdirs : List String
  command : List String
deriving DecidableEq, Repr

/-- The `op` closure of the `scp` command for one resolved host: in
download mode with more than one host it derives a per-host directory from
the host address, creates it, and uses it as the transfer target; a single
host download and every upload use the destination verbatim. -/
def scp_op (user key ssh_config : Option String) (scp_args : List String) (download : Bool)
    (source target : String) (host : String) (host_count : Nat) : ScpStep :=
  let command := scp_base key ssh_config scp_args
  if download then
    if host_count > 1 then
      let host_specific_dir_name := dashify host
      let full_target := path_join target host_specific_dir_name
      { mkdirs := [full_target],
        command := command ++ [format_scp_remote_host_path user host source, full_target] }
    else
      { mkdirs := [],
        command := command ++ [format_scp_remote_host_path user host source, target] }
  else
    { mkdirs := [],
      command := command ++ [source, format_scp_remote_host_path user host target] }

/-- Observable side effects of dispatching to the selected hosts. -/
inductive DispatchEvent
  | mkdir (path : String)
  | spawn (cmd : List String)
deriving DecidableEq, Repr

/-- Sequential `run_op_for_hosts` for `scp` on the resolved host
addresses: per host, `op` runs (performing its `os.mkdir` calls) and then
its command is spawned; `host_count` is the fixed `len(choices)`. -/
def scp_run_trace (user key ssh_config : Option String) (scp_args : List String)
    (download : Bool) (source target : String) (hosts : List String) : List DispatchEvent :=
  hosts.flatMap (fun host =>
    let step := scp_op user key ssh_config scp_args download source target host hosts.length
    step.mkdirs.map DispatchEvent.mkdir ++ [DispatchEvent.spawn step.command])

/-- Mocked instance `web-a`: private `10.0.0.1`, no public address. -/
def webA : Instance :=
  { instanceId := "i-0a", tags := [("Name", "web-a")], privateIpAddress := some "10.0.0.1" }

/-- Mocked instance `web-b`: public `1.2.3.4`, private `10.0.0.2`. -/
def webB : Instance :=
  { instanceId := "i-0b", tags := [("Name", "web-b")],
    publicIpAddress := some "1.2.3.4", privateIpAddress := some "10.0.0.2" }

/-- Mocked per-attribute responses for query `web`: the first attribute
query returns one reservation holding both instances. -/
def mockResponses : List (List (List Instance)) := [[[webA, webB]], [], [], []]

/-- Responses where `web-b` is returned by two attribute queries. -/
def dupResponses : List (List (List Instance)) := [[[webB]], [[webB]], [], []]


/-! ### Order facts about the name comparison -/

theorem charsLe_refl (x : List Char) : charsLe x x = true := by
  induction x with
  | nil => rfl
  | cons a as ih => simp [charsLe, lt_irrefl, ih]

theorem charsLe_cons_iff (a b : Char) (as bs : List Char) :
    charsLe (a :: as) (b :: bs) = true ↔ a < b ∨ (a = b ∧ charsLe as bs = true) := by
  by_cases h1 : a < b
  · simp [charsLe, h1]
  · by_cases h2 : b < a
    · have hne : a ≠ b := ne_of_gt h2
      simp [charsLe, h1, h2, hne]
    · have heq : a = b := le_antisymm (not_lt.mp h2) (not_lt.mp h1)
      simp [charsLe, h1, h2, heq]

theorem charsLe_total (x y : List Char) : charsLe x y = true ∨ charsLe y x = true := by
  induction x generalizing y with
  | nil => exact Or.inl rfl
  | cons a as ih =>
    cases y with
    | nil => exact Or.inr rfl
    | cons b bs =>
      rcases lt_trichotomy a b with h | h | h
      · exact Or.inl ((charsLe_cons_iff a b as bs).mpr (Or.inl h))
      · rcases ih bs with h2 | h2
        · exact Or.inl ((charsLe_cons_iff a b as bs).mpr (Or.inr ⟨h, h2⟩))
        · exact Or.inr ((charsLe_cons_iff b a bs as).mpr (Or.inr ⟨h.symm, h2⟩))
      · exact Or.inr ((charsLe_cons_iff b a bs as).mpr (Or.inl h))

theorem charsLe_trans (x y z : List Char) (hxy : charsLe x y = true)
    (hyz : charsLe y z = true) : charsLe x z = true := by
  induction x generalizing y z with
  | nil => rfl
  | cons a as ih =>
    cases y with
    | nil => simp [charsLe] at hxy
    | cons b bs =>
      cases z with
      | nil => simp [charsLe] at hyz
      | cons c cs =>
        rw [charsLe_cons_iff] at hxy hyz ⊢
        rcases hxy with h1 | ⟨h1, h1t⟩
        · rcases hyz with h2 | ⟨h2, h2t⟩
          · exact Or.inl (lt_trans h1 h2)
          · exact Or.inl (h2 ▸ h1)
        · rcases hyz with h2 | ⟨h2, h2t⟩
          · exact Or.inl (h1 ▸ h2)
          · exact Or.inr ⟨h1.trans h2, ih bs cs h1t h2t⟩

instance : IsTotal Instance nameLe :=
  ⟨fun a b => charsLe_total (name a).data (name b).data⟩

instance : IsTrans Instance nameLe :=
  ⟨fun _ _ _ => charsLe_trans _ _ _⟩

theorem nameLe_refl (a : Instance) : nameLe a a := charsLe_refl (name a).data

/-! ### Stability of the sort in `match_instances` -/

theorem filter_orderedInsert (a : Instance) (l : List Instance) (n : String) :
    (List.orderedInsert nameLe a l).filter (fun i => name i == n) =
      if name a == n then a :: l.filter (fun i => name i == n)
      else l.filter (fun i => name i == n) := by
  induction l with
  | nil =>
    simp only [List.orderedInsert, List.filter]
    cases h : (name a == n) <;> simp [h]
  | cons b l ih =>
    by_cases hab : nameLe a b
    · have hoi : List.orderedInsert nameLe a (b :: l) = a :: b :: l := by
        simp [List.orderedInsert, hab]
      rw [hoi]
      cases ha : (name a == n) <;> simp [List.filter_cons, ha]
    · have hoi : List.orderedInsert nameLe a (b :: l) =
          b :: List.orderedInsert nameLe a l := by
        simp [List.orderedInsert, hab]
      rw [hoi, List.filter_cons, ih]
      by_cases ha : name a = n
      · have hfa : (name a == n) = true := by simpa using ha
        have hbn : ¬ (name b = n) := by
          intro hb
          exact hab (show strLe (name a) (name b) = true by
            rw [ha, hb]; exact charsLe_refl _)
        have hfb : (name b == n) = false := by simpa using hbn
        simp [hfa, hfb, List.filter_cons]
      · have hfa : (name a == n) = false := by simpa using ha
        simp [hfa, List.filter_cons]

theorem filter_insertionSort (l : List Instance) (n : String) :
    (List.insertionSort nameLe l).filter (fun i => name i == n) =
      l.filter (fun i => name i == n) := by
  induction l with
  | nil => rfl
  | cons a l ih =>
    show (List.orderedInsert nameLe a (List.insertionSort nameLe l)).filter _ = _
    rw [filter_orderedInsert, ih]
    cases ha : (name a == n) <;> simp [List.filter_cons, ha]


/-! ### Soundness of the selection-input validation -/

theorem acceptLine_sound (min_value max_value : Int) (line : String) (cs : List Int)
    (h : acceptLine min_value max_value line = some cs) :
    (split_commas line.data).mapM (fun c => pyInt (String.mk c)) = some cs ∧
    (∀ c ∈ cs, min_value ≤ c ∧ c ≤ max_value) ∧
    (cs = [0] ∨ (0 : Int) ∉ cs) := by
  unfold acceptLine at h
  cases hp : (split_commas line.data).mapM (fun c => pyInt (String.mk c)) with
  | none => rw [hp] at h; exact absurd h (by simp)
  | some choices =>
    rw [hp] at h
    replace h :
        (if (!choices.all fun c => decide (min_value ≤ c) && decide (c ≤ max_value)) = true
          then none
          else if (choices.length != 1 && choices.contains 0) = true then none
          else some choices) = some cs := h
    by_cases hall : (choices.all fun c => decide (min_value ≤ c) && decide (c ≤ max_value)) = true
    · rw [if_neg (by simp [hall])] at h
      by_cases hz : (choices.length != 1 && choices.contains 0) = true
      · rw [if_pos hz] at h
        exact absurd h (by simp)
      · rw [if_neg hz] at h
        have hcs : choices = cs := Option.some.inj h
        subst hcs
        refine ⟨rfl, ?_, ?_⟩
        · intro c hc
          have := List.all_eq_true.mp hall c hc
          simpa using this
        · rcases Bool.and_eq_false_iff.mp (Bool.eq_false_iff.mpr hz) with h1 | h1
          · have hlen : choices.length = 1 := by simpa using h1
            rcases List.length_eq_one.mp hlen with ⟨c, rfl⟩
            by_cases hc0 : c = 0
            · exact Or.inl (by rw [hc0])
            · exact Or.inr (by simp [eq_comm, hc0])
          · exact Or.inr (by simpa using h1)
    · rw [if_pos (by simpa using Bool.eq_false_iff.mpr hall)] at h
      exact absurd h (by simp)

theorem read_numbers_sound (min_value max_value : Int) (input : List String) (cs : List Int)
    (h : read_numbers min_value max_value input = some cs) :
    (∀ c ∈ cs, min_value ≤ c ∧ c ≤ max_value) ∧ (cs = [0] ∨ (0 : Int) ∉ cs) := by
  induction input with
  | nil => exact absurd h (by simp [read_numbers])
  | cons line rest ih =>
    unfold read_numbers at h
    cases ha : acceptLine min_value max_value line with
    | some c0 =>
      rw [ha] at h
      have : c0 = cs := Option.some.inj h
      subst this
      exact ⟨(acceptLine_sound _ _ _ _ ha).2.1, (acceptLine_sound _ _ _ _ ha).2.2⟩
    | none =>
      rw [ha] at h
      exact ih h

theorem acceptLine_zero (N : Int) (hN : 0 ≤ N) : acceptLine 0 N "0" = some [0] := by
  unfold acceptLine
  have hp : (split_commas ("0" : String).data).mapM (fun c => pyInt (String.mk c)) =
      some [0] := rfl
  rw [hp]
  have h0 : (decide ((0 : Int) ≤ 0)) = true := by decide
  simp [List.all_cons, List.all_nil, h0, decide_eq_true hN]

theorem acceptLine_one_one (N : Int) (hN : 1 ≤ N) : acceptLine 0 N "1,1" = some [1, 1] := by
  unfold acceptLine
  have hp : (split_commas ("1,1" : String).data).mapM (fun c => pyInt (String.mk c)) =
      some [1, 1] := rfl
  rw [hp]
  have h1 : (decide ((0 : Int) ≤ 1)) = true := by decide
  simp [List.all_cons, List.all_nil, h1, decide_eq_true hN]


/-! ### Claims -/

/-- C1 (counterexample): with the mocked `web` inventory, `ls web -f
public_ip` renders the missing public address of `web-a` as `None` (the
Python `str` of `None`), not as an empty placeholder: the output is
`None\n1.2.3.4`, not the claimed empty line followed by `1.2.3.4`. -/
theorem claim_C1_counterexample :
    ls_cmd "\n" "public_ip" mockResponses = Except.ok "None\n1.2.3.4" ∧
    ls_cmd "\n" "public_ip" mockResponses ≠ Except.ok "\n1.2.3.4" := by
  refine ⟨rfl, ?_⟩
  intro h
  rw [show ls_cmd "\n" "public_ip" mockResponses = Except.ok "None\n1.2.3.4" from rfl] at h
  injection h with h2
  exact absurd h2 (by decide)

/-- C1 (amended): a field missing from an instance renders as the string
`None`: given the matched instances `web-a` (private `10.0.0.1`, no public
address) and `web-b` (public `1.2.3.4`, private `10.0.0.2`), `ls web -f
name` outputs `web-a` then `web-b`, and `ls web -f public_ip` with the
default newline delimiter outputs the line `None` followed by `1.2.3.4`. -/
theorem claim_C1 :
    ls_cmd "\n" "name" mockResponses = Except.ok "web-a\nweb-b" ∧
    ls_cmd "\n" "public_ip" mockResponses = Except.ok "None\n1.2.3.4" :=
  ⟨rfl, rfl⟩

/-- C2: for every set of per-attribute API responses, every instance
returned by `match_instances` has at least one address populated, the
result is sorted by derived name ascending (case-sensitive code-point
order), and ties keep their original discovery order: for each name, the
sub-sequence of instances carrying that name equals the corresponding
sub-sequence of the concatenated responses (stable sort). -/
theorem claim_C2 (responses : List (List (List Instance))) :
    (∀ i ∈ match_instances responses, hasAddress i = true) ∧
    List.Sorted nameLe (match_instances responses) ∧
    (∀ n : String,
      (match_instances responses).filter (fun i => name i == n) =
        ((responses.map _get_instances).flatten).filter
          (fun i => hasAddress i && (name i == n))) := by
  refine ⟨?_, ?_, ?_⟩
  · intro i hi
    have hm : i ∈ ((responses.map _get_instances).flatten).filter hasAddress :=
      (List.mem_insertionSort nameLe).mp hi
    exact (List.mem_filter.mp hm).2
  · exact List.sorted_insertionSort nameLe _
  · intro n
    show (List.insertionSort nameLe _).filter _ = _
    rw [filter_insertionSort, List.filter_filter]
    simp [Bool.and_comm]

/-- C2 witness: instantiated on the mocked inventory. -/
theorem claim_C2_witness : hasAddress webA = true :=
  (claim_C2 mockResponses).1 webA (by decide)

/-- C9: `match_instances` performs no deduplication by instance id: an
instance with at least one address occurs in the output exactly as often
as it occurs across the per-attribute responses combined. -/
theorem claim_C9 (responses : List (List (List Instance))) (i : Instance)
    (h : hasAddress i = true) :
    (match_instances responses).count i =
      (responses.map (fun r => ((_get_instances r).count i))).sum := by
  show (List.insertionSort nameLe _).count i = _
  rw [(List.perm_insertionSort nameLe _).count_eq, List.count_filter h,
    List.count_flatten, List.map_map]
  rfl

/-- C9 witness: `web-b` returned by two attribute queries appears twice. -/
theorem claim_C9_witness : (match_instances dupResponses).count webB = 2 :=
  Eq.trans (claim_C9 dupResponses webB rfl) (by decide)


/-- C3: for the ssh and scp commands, the identity flags are accepted iff
exactly one of key / ssh-config is supplied and ssh-config is not combined
with user or key; any violation produces a non-empty message and exit code
1 before the inventory is ever consulted (the result does not depend on
the API responses or on stdin). -/
theorem claim_C3 (user key ssh_config : Option String) :
    (validate_identity_parameters user key ssh_config = Except.ok () ↔
      (truthy key = true ∧ truthy ssh_config = false) ∨
      (truthy ssh_config = true ∧ truthy key = false ∧ truthy user = false)) ∧
    (∀ e, validate_identity_parameters user key ssh_config = Except.error e →
      e ≠ "" ∧
      ∀ (fmt_match : Instance → String) (responses responses' : List (List (List Instance)))
        (input input' : List String),
        runExit (ssh_cmd user key ssh_config fmt_match responses input) = (e, 1) ∧
        ssh_cmd user key ssh_config fmt_match responses input =
          ssh_cmd user key ssh_config fmt_match responses' input') := by
  constructor
  · cases hu : truthy user <;> cases hk : truthy key <;> cases hc : truthy ssh_config <;>
      simp [validate_identity_parameters, hu, hk, hc]
  · intro e he
    have hrun : ∀ (fmt_match : Instance → String) (responses : List (List (List Instance)))
        (input : List String),
        ssh_cmd user key ssh_config fmt_match responses input = Except.error e := by
      intro fmt responses input
      unfold ssh_cmd
      rw [he]
    constructor
    · unfold validate_identity_parameters at he
      split_ifs at he with h1 h2
      · injection he with hmsg
        rw [← hmsg]
        decide
      · injection he with hmsg
        rw [← hmsg]
        decide
    · intro fmt_match responses responses' input input'
      refine ⟨?_, ?_⟩
      · simp [hrun, runExit]
      · rw [hrun, hrun]

/-- C3 witness: supplying `--ssh-config` together with `--key` is rejected
with the mutual-exclusion message, exit code 1, regardless of responses. -/
theorem claim_C3_witness :
    runExit (ssh_cmd none (some "k") (some "c") extended_private mockResponses []) =
      ("The ssh-config option is mutually exclusive with the user and key options", 1) :=
  (((claim_C3 none (some "k") (some "c")).2 _ rfl).2
    extended_private mockResponses mockResponses [] []).1

/-- C4: a selection line is accepted only if every comma-separated value
parses as an integer within `[0, N]` and the parsed list is exactly `[0]`
or contains no `0`; a rejected line makes `read_numbers` continue with the
next input line instead of terminating. -/
theorem claim_C4 (N : Int) (line : String) (rest : List String) :
    (∀ cs, acceptLine 0 N line = some cs →
      (∀ c ∈ cs, 0 ≤ c ∧ c ≤ N) ∧ (cs = [0] ∨ (0 : Int) ∉ cs)) ∧
    (acceptLine 0 N line = none →
      read_numbers 0 N (line :: rest) = read_numbers 0 N rest) := by
  constructor
  · intro cs h
    exact ⟨(acceptLine_sound 0 N line cs h).2.1, (acceptLine_sound 0 N line cs h).2.2⟩
  · intro h
    conv_lhs => rw [read_numbers]
    rw [h]

/-- C4 witness: the line `0,1` (`0` mixed with another index) is rejected
and prompting continues with the next line. -/
theorem claim_C4_witness :
    read_numbers 0 3 ["0,1", "2"] = read_numbers 0 3 ["2"] :=
  (claim_C4 3 "0,1" ["2"]).2 rfl

/-- C6: a candidate list of size exactly one is returned directly: no menu
is echoed and the result does not depend on standard input. -/
theorem claim_C6 (fmt_match : Instance → String) (m : Instance) (input : List String) :
    get_hosts_choice fmt_match [m] input = Except.ok ([], [m]) := rfl

/-- C7: when matching returns zero instances, the ssh/scp pipeline and the
ls command both die with `No matches found` on stderr and exit code 1. -/
theorem claim_C7 (responses : List (List (List Instance))) (user key ssh_config : Option String)
    (fmt_match : Instance → String) (input : List String) (delim fmtKey : String)
    (hm : match_instances responses = [])
    (hv : validate_identity_parameters user key ssh_config = Except.ok ()) :
    runExit (ssh_cmd user key ssh_config fmt_match responses input) = ("No matches found", 1) ∧
    runExit (ls_cmd delim fmtKey responses) = ("No matches found", 1) := by
  constructor
  · unfold ssh_cmd
    rw [hv, hm]
    rfl
  · unfold ls_cmd
    rw [hm]
    rfl

/-- C7 witness: empty responses produce the fatal `No matches found`. -/
theorem claim_C7_witness :
    runExit (ssh_cmd none (some "k") none extended_private [] []) = ("No matches found", 1) ∧
    runExit (ls_cmd "\n" "name" []) = ("No matches found", 1) :=
  claim_C7 [] none (some "k") none extended_private [] "\n" "name" rfl rfl


/-- C5: with more than one candidate, an accepted `0` line yields the full
candidate list in its original order, and any other accepted line yields
the instances at the given 1-based indices (all in `[1, N]`) in the order
the user listed them. -/
theorem claim_C5 (fmt_match : Instance → String) (matched : List Instance)
    (input : List String) (h : 1 < matched.length) :
    get_hosts_choice fmt_match matched ("0" :: input) =
      Except.ok (menuOf fmt_match matched, matched) ∧
    (∀ indices, read_numbers 0 (matched.length : Int) input = some indices →
      indices ≠ [0] →
      (∀ c ∈ indices, 1 ≤ c ∧ c ≤ (matched.length : Int)) ∧
      get_hosts_choice fmt_match matched input =
        Except.ok (menuOf fmt_match matched,
          indices.map (fun index => matched.getD (index - 1).toNat default))) := by
  have h0 : ¬ (matched.length = 0) := by omega
  have hN : (0 : Int) ≤ (matched.length : Int) := Int.ofNat_nonneg _
  constructor
  · unfold get_hosts_choice
    rw [if_neg h0, if_pos h]
    have hr : read_numbers 0 (matched.length : Int) ("0" :: input) = some [0] := by
      conv_lhs => rw [read_numbers]
      rw [acceptLine_zero _ hN]
    rw [hr]
    rfl
  · intro indices hrn hne
    have hsound := read_numbers_sound _ _ _ _ hrn
    have hb : ∀ c ∈ indices, 1 ≤ c ∧ c ≤ (matched.length : Int) := by
      intro c hc
      have hbc := hsound.1 c hc
      have h0c : c ≠ 0 := by
        rcases hsound.2 with h01 | h0n
        · exact absurd h01 hne
        · intro hc0
          exact h0n (hc0 ▸ hc)
      refine ⟨?_, hbc.2⟩
      have := hbc.1
      omega
    refine ⟨hb, ?_⟩
    unfold get_hosts_choice
    rw [if_neg h0, if_pos h, hrn]
    have hcond : (indices.length == 1 && indices.getD 0 1 == 0) = false := by
      by_cases hl : indices.length = 1
      · rcases List.length_eq_one.mp hl with ⟨c, rfl⟩
        have hc0 : ¬ (c = 0) := fun hc => hne (by rw [hc])
        simp [hc0]
      · simp [hl]
    show (if (indices.length == 1 && indices.getD 0 1 == 0) = true
        then Except.ok (menuOf fmt_match matched, matched)
        else Except.ok (menuOf fmt_match matched,
          indices.map (fun index => matched.getD (index - 1).toNat default))) =
      Except.ok (menuOf fmt_match matched,
        indices.map (fun index => matched.getD (index - 1).toNat default))
    rw [hcond]
    rfl

/-- C5 witness: instantiated on the two mocked instances with the line
`0`. -/
theorem claim_C5_witness :
    get_hosts_choice extended_private [webA, webB] ["0"] =
      Except.ok (menuOf extended_private [webA, webB], [webA, webB]) :=
  (claim_C5 extended_private [webA, webB] [] (by decide)).1

/-- C10: an accepted selection line may repeat an index: `1,1` passes
validation and the chosen instance is returned once per occurrence. -/
theorem claim_C10 (matched : List Instance) (fmt_match : Instance → String)
    (rest : List String) (h : 1 < matched.length) :
    acceptLine 0 (matched.length : Int) "1,1" = some [1, 1] ∧
    get_hosts_choice fmt_match matched ("1,1" :: rest) =
      Except.ok (menuOf fmt_match matched,
        [matched.getD 0 default, matched.getD 0 default]) := by
  have hN : (1 : Int) ≤ (matched.length : Int) := by omega
  have hacc := acceptLine_one_one (matched.length : Int) hN
  refine ⟨hacc, ?_⟩
  unfold get_hosts_choice
  rw [if_neg (show ¬ (matched.length = 0) by omega), if_pos h]
  have hr : read_numbers 0 (matched.length : Int) ("1,1" :: rest) = some [1, 1] := by
    conv_lhs => rw [read_numbers]
    rw [hacc]
  rw [hr]
  rfl

/-- C10 witness: selecting `1,1` among the two mocked instances yields
`web-a` twice. -/
theorem claim_C10_witness :
    get_hosts_choice extended_private [webA, webB] ["1,1"] =
      Except.ok (menuOf extended_private [webA, webB], [webA, webA]) :=
  Eq.trans ((claim_C10 [webA, webB] extended_private [] (by decide)).2) rfl

/-- C8: in download mode with more than one selected host, the `scp` op
uses the target directory joined with the dashed host address, creating
that directory before the transfer of that host; uploads and single-host
downloads use the destination verbatim with no directory creation. -/
theorem claim_C8 (user key ssh_config : Option String) (scp_args : List String)
    (source target host : String) (host_count : Nat) :
    (1 < host_count →
      scp_op user key ssh_config scp_args true source target host host_count =
        { mkdirs := [path_join target (dashify host)],
          command := scp_base key ssh_config scp_args ++
            [format_scp_remote_host_path user host source,
             path_join target (dashify host)] }) ∧
    (host_count ≤ 1 →
      scp_op user key ssh_config scp_args true source target host host_count =
        { mkdirs := [],
          command := scp_base key ssh_config scp_args ++
            [format_scp_remote_host_path user host source, target] }) ∧
    (scp_op user key ssh_config scp_args false source target host host_count =
      { mkdirs := [],
        command := scp_base key ssh_config scp_args ++
          [source, format_scp_remote_host_path user host target] }) ∧
    (∀ hosts : List String, 1 < hosts.length →
      scp_run_trace user key ssh_config scp_args true source target hosts =
        hosts.flatMap (fun h2 =>
          [DispatchEvent.mkdir (path_join target (dashify h2)),
           DispatchEvent.spawn (scp_base key ssh_config scp_args ++
             [format_scp_remote_host_path user h2 source,
              path_join target (dashify h2)])])) := by
  refine ⟨?_, ?_, ?_, ?_⟩
  · intro hc
    simp [scp_op, hc]
  · intro hc
    simp [scp_op, show ¬ (1 < host_count) by omega]
  · simp [scp_op]
  · intro hosts hl
    simp only [scp_run_trace]
    congr 1
    funext h2
    simp [scp_op, hl]

/-- C8 witness: downloading from `10.0.0.1` and `10.0.0.2` into
`/tmp/out` creates `/tmp/out/10-0-0-1` and `/tmp/out/10-0-0-2`, each
before its host's transfer. -/
theorem claim_C8_witness :
    scp_run_trace none (some "k") none [] true "/var/log/syslog" "/tmp/out"
        ["10.0.0.1", "10.0.0.2"] =
      [DispatchEvent.mkdir "/tmp/out/10-0-0-1",
       DispatchEvent.spawn ["scp", "-oStrictHostKeyChecking=no", "-i", "k",
         "10.0.0.1:/var/log/syslog", "/tmp/out/10-0-0-1"],
       DispatchEvent.mkdir "/tmp/out/10-0-0-2",
       DispatchEvent.spawn ["scp", "-oStrictHostKeyChecking=no", "-i", "k",
         "10.0.0.2:/var/log/syslog", "/tmp/out/10-0-0-2"]] :=
  Eq.trans ((claim_C8 none (some "k") none [] "/var/log/syslog" "/tmp/out" "" 0).2.2.2
    ["10.0.0.1", "10.0.0.2"] (by decide)) (by decide)

end Ec2grep
